import Mathlib

/-!
Verification development for the fintech-ai-agent repository.

Shallow embedding of the parts of the code the claims refer to:
* `demo_trading_platform/trading/risk_management.py` (RiskManager, LegacyRiskSystem)
* `src/framework/actions/registry.py` (ActionRegistry, PythonActionRegistry)
* `src/framework/language/function_calling.py` (parse_response)
* `src/framework/core/agent.py` (Agent.run loop)
* `src/framework/llm/client.py` (generate_response / _attempt_fallback)
* `demo_trading_platform/analytics/performance.py` (calculate_var)

Python floats are modelled as rationals (`ℚ`); the value `float('inf')`,
which the risk manager stores as the admin position limit, is modelled by
an explicit extended type `XFloat`.  Python dicts keyed by strings are
modelled as association lists with dict semantics (first-position,
last-value-wins updates; key lookup).
-/

set_option allowUnsafeReducibility true in
attribute [semireducible] Rat.mul Rat.add Rat.sub Rat.inv Rat.ofScientific

namespace Spec2Proof

/-- Extended float value: a finite rational or `float('inf')`, as used by
`RiskManager.position_limits["admin"] = float('inf')`. -/
inductive XFloat where
  | fin (q : ℚ)
  | inf
deriving DecidableEq, Repr

/-- Strict comparison `a < b` on `XFloat`, following IEEE comparison with
`+inf` (`inf < x` is false; `q < inf` is true for finite `q`). -/
def XFloat.lt : XFloat → XFloat → Bool
  | .fin a, .fin b => a < b
  | .fin _, .inf => true
  | .inf, _ => false

/-- Division of a finite float by an `XFloat`, as used in
`calculate_portfolio_risk` (`total_value / position_limit`); a finite value
divided by `inf` is `0.0` in Python. The `limit == 0` case is guarded by
the caller, matching the source. -/
def XFloat.divFin (a : ℚ) : XFloat → XFloat
  | .fin b => .fin (a / b)
  | .inf => .fin 0

/-- Python `d.get(k, default)` on a string-keyed dict modelled as an
association list. -/
def dictGet {α : Type} (d : List (String × α)) (k : String) (dflt : α) : α :=
  (d.lookup k).getD dflt

/-- Module constant `DEFAULT_POSITION_LIMIT = 1000000` from
risk_management.py. -/
def DEFAULT_POSITION_LIMIT : ℚ := 1000000

/-- Module constant `EMERGENCY_POSITION_LIMIT = 5000000` from
risk_management.py. -/
def EMERGENCY_POSITION_LIMIT : ℚ := 5000000

/-- Per-symbol position data tracked in `RiskManager.current_positions`
(the `datetime` field `last_update` is omitted: no claim reads it). -/
structure PositionData where
  quantity : ℚ
  avg_price : ℚ
  last_price : ℚ
deriving DecidableEq, Repr

/-- Mutable state of a `RiskManager` instance. -/
structure RiskManager where
  position_limits : List (String × XFloat)
  current_positions : List (String × List (String × PositionData))
  daily_pnl : List (String × ℚ)
  max_daily_loss : ℚ
  var_threshold : ℚ
  position_limit_overrides : List (String × XFloat)
deriving DecidableEq, Repr

/-- State produced by `RiskManager.__init__`. -/
def riskManagerInit : RiskManager :=
  { position_limits :=
      [("default", .fin DEFAULT_POSITION_LIMIT),
       ("vip", .fin EMERGENCY_POSITION_LIMIT),
       ("admin", .inf)]
    current_positions := []
    daily_pnl := []
    max_daily_loss := 50000
    var_threshold := 100000
    position_limit_overrides := [] }

/-- Hardcoded list `admin_users` inside `RiskManager._get_user_tier`. -/
def admin_users : List String := ["admin", "superuser", "risk_override"]

/-- Hardcoded list `vip_users` inside `RiskManager._get_user_tier`. -/
def vip_users : List String := ["vip1", "vip2", "whale_trader"]

/-- `RiskManager._get_user_tier`: membership test against the two
hardcoded lists, defaulting to `"default"`. -/
def get_user_tier (user_id : String) : String :=
  if user_id ∈ admin_users then "admin"
  else if user_id ∈ vip_users then "vip"
  else "default"

/-- `RiskManager._get_current_position_value`: tracked quantity times the
cached `last_price`, `0.0` when the user or symbol is untracked. -/
def get_current_position_value (rm : RiskManager) (user_id symbol : String) : ℚ :=
  let positions := (rm.current_positions.lookup user_id).getD []
  match positions.lookup symbol with
  | none => 0
  | some pd => pd.quantity * pd.last_price

/-- `RiskManager.check_position_limit`: compares
`current_position_value + quantity*price` against the tier limit (or the
user's override when present); on a breach, admin tier still returns
`True`. -/
def check_position_limit (rm : RiskManager) (user_id symbol : String)
    (quantity price : ℚ) : Bool :=
  let user_tier := get_user_tier user_id
  let current_position_value := get_current_position_value rm user_id symbol
  let new_position_value := quantity * price
  let total_position_value := current_position_value + new_position_value
  let applicable_limit := dictGet rm.position_limits user_tier (.fin DEFAULT_POSITION_LIMIT)
  let applicable_limit :=
    match rm.position_limit_overrides.lookup user_id with
    | some l => l
    | none => applicable_limit
  if XFloat.lt applicable_limit (.fin total_position_value) then
    if user_tier = "admin" then true else false
  else
    true

/-- `RiskManager.calculate_portfolio_risk`: returns the risk-metrics dict.
The empty-positions early return has different keys than the full result,
so the result is modelled as a string-keyed dict.  Volatility is the
hardcoded `0.2`; `var_95 = total_risk * 1.96`. -/
def calculate_portfolio_risk (rm : RiskManager) (user_id : String) :
    List (String × XFloat) :=
  let positions := (rm.current_positions.lookup user_id).getD []
  if positions = [] then
    [("total_risk", .fin 0), ("var", .fin 0), ("position_limit_utilization", .fin 0)]
  else
    let total_value := (positions.map (fun p => p.2.quantity * p.2.last_price)).sum
    let total_risk := (positions.map (fun p => p.2.quantity * p.2.last_price * (1/5))).sum
    let user_tier := get_user_tier user_id
    let position_limit := dictGet rm.position_limits user_tier (.fin DEFAULT_POSITION_LIMIT)
    let utilization :=
      if position_limit = .fin 0 then XFloat.inf
      else XFloat.divFin total_value position_limit
    [("total_value", .fin total_value),
     ("total_risk", .fin total_risk),
     ("var_95", .fin (total_risk * (49/25))),
     ("position_limit_utilization", utilization),
     ("position_limit", position_limit)]

/-- Result dict of `RiskManager.validate_trade_risk`. -/
structure TradeRiskResult where
  approved : Bool
  reasons : List String
  risk_metrics : List (String × XFloat)
deriving DecidableEq, Repr

/-- `RiskManager.validate_trade_risk`: gathers `reasons` from the
position-limit check and the daily-loss check, then approves when
`user_id == "admin"` (string literal, not tier) or the user holds a
position-limit override, else approves only when `reasons` is empty. -/
def validate_trade_risk (rm : RiskManager) (user_id symbol : String)
    (quantity price : ℚ) : TradeRiskResult :=
  let position_limit_ok := check_position_limit rm user_id symbol quantity price
  let reasons0 : List String :=
    if position_limit_ok then [] else ["Position limit exceeded"]
  let current_pnl := (rm.daily_pnl.lookup user_id).getD 0
  let reasons1 :=
    reasons0 ++ (if current_pnl < -rm.max_daily_loss then ["Daily loss limit exceeded"] else [])
  let metrics := calculate_portfolio_risk rm user_id
  if user_id = "admin" ∨ (rm.position_limit_overrides.lookup user_id).isSome then
    { approved := true
      reasons := reasons1 ++ ["Admin override or position_limit override active"]
      risk_metrics := metrics }
  else
    { approved := reasons1 = []
      reasons := reasons1
      risk_metrics := metrics }

/-- State of a `LegacyRiskSystem` instance. -/
structure LegacyRiskSystem where
  legacy_position_limits : List (String × ℚ)
deriving DecidableEq, Repr

/-- `LegacyRiskSystem.__init__`: the hardcoded asset-class limit table. -/
def legacyRiskSystemInit : LegacyRiskSystem :=
  { legacy_position_limits :=
      [("equity", 500000), ("bond", 1000000), ("forex", 250000), ("commodity", 750000)] }

/-- Return dict of `LegacyRiskSystem.migrate_position_limits`. -/
structure MigrationResult where
  migration_status : String
  position_limits_doubled : Bool
deriving DecidableEq, Repr

/-- `LegacyRiskSystem.migrate_position_limits`: for each asset class it
computes `new_limit = limit * 2` and reports it via
`logging.info(f"Migrating position_limit for {asset_class}: {limit} -> {new_limit}")`,
then returns the status dict.  The first component collects the reported
`(asset_class, limit, new_limit)` log entries in iteration order; the
stored `legacy_position_limits` table itself is not mutated by the source. -/
def migrate_position_limits (sys : LegacyRiskSystem) :
    List (String × ℚ × ℚ) × MigrationResult :=
  (sys.legacy_position_limits.map (fun al => (al.1, al.2, al.2 * 2)),
   { migration_status := "completed", position_limits_doubled := true })

/-- JSON value, as produced by Python `json.loads`.  Python objects are
dicts (insertion-ordered, keys unique), arrays are lists, numbers are
modelled as rationals (ints and floats collapsed), strings and booleans
and `null` as expected. -/
inductive Json where
  | null
  | bool (b : Bool)
  | num (q : ℚ)
  | str (s : String)
  | arr (elems : List Json)
  | obj (members : List (String × Json))
deriving Repr, BEq

/-- Dict insertion with Python semantics: an existing key keeps its
position and takes the new value; a new key is appended. -/
def objUpsert (members : List (String × Json)) (k : String) (v : Json) :
    List (String × Json) :=
  if (members.lookup k).isSome then
    members.map (fun kv => if kv.1 = k then (k, v) else kv)
  else
    members ++ [(k, v)]

/-- Opening-brace character, written by code point to keep it out of
string literals. -/
def lbrace : Char := Char.ofNat 123

/-- Closing-brace character. -/
def rbrace : Char := Char.ofNat 125

/-- JSON whitespace (space, tab, newline, carriage return). -/
def isJsonWs (c : Char) : Bool :=
  (c == ' ') || (c == '\t') || (c == '\n') || (c == '\r')

/-- Drop leading JSON whitespace. -/
def skipWs : List Char → List Char
  | [] => []
  | c :: cs => if isJsonWs c then skipWs cs else c :: cs

/-- Value of one hex digit, if any. -/
def hexVal (c : Char) : Option Nat :=
  if '0' ≤ c ∧ c ≤ '9' then some (c.toNat - '0'.toNat)
  else if 'a' ≤ c ∧ c ≤ 'f' then some (c.toNat - 'a'.toNat + 10)
  else if 'A' ≤ c ∧ c ≤ 'F' then some (c.toNat - 'A'.toNat + 10)
  else none

/-- Body of a JSON string literal after the opening quote: returns the
decoded characters and the remainder after the closing quote.  Escape
sequences follow the JSON grammar; raw control characters are rejected as
in Python's strict mode.  (Combining of `\\u` surrogate pairs is not
modelled; no claim involves non-BMP text.) -/
def parseStringChars : Nat → List Char → Option (List Char × List Char)
  | 0, _ => none
  | fuel+1, cs =>
    match cs with
    | [] => none
    | c :: rest =>
      if c = '"' then some ([], rest)
      else if c = '\\' then
        match rest with
        | [] => none
        | e :: rest2 =>
          let esc : Option (Char × List Char) :=
            if e = '"' then some ('"', rest2)
            else if e = '\\' then some ('\\', rest2)
            else if e = '/' then some ('/', rest2)
            else if e = 'b' then some (Char.ofNat 8, rest2)
            else if e = 'f' then some (Char.ofNat 12, rest2)
            else if e = 'n' then some ('\n', rest2)
            else if e = 'r' then some ('\r', rest2)
            else if e = 't' then some ('\t', rest2)
            else if e = 'u' then
              match rest2 with
              | h1 :: h2 :: h3 :: h4 :: rest3 =>
                match hexVal h1, hexVal h2, hexVal h3, hexVal h4 with
                | some a, some b, some c2, some d =>
                    some (Char.ofNat (((a * 16 + b) * 16 + c2) * 16 + d), rest3)
                | _, _, _, _ => none
              | _ => none
            else none
          match esc with
          | none => none
          | some (ch, rest3) =>
            match parseStringChars fuel rest3 with
            | some (out, rem) => some (ch :: out, rem)
            | none => none
      else if c.toNat < 32 then none
      else
        match parseStringChars fuel rest with
        | some (out, rem) => some (c :: out, rem)
        | none => none

/-- Longest prefix of decimal digits plus the remainder. -/
def takeDigits : List Char → List Char × List Char
  | [] => ([], [])
  | c :: cs =>
    if c.isDigit then
      let (ds, rest) := takeDigits cs
      (c :: ds, rest)
    else ([], c :: cs)

/-- Natural number denoted by a digit list. -/
def digitsToNat (ds : List Char) : Nat :=
  ds.foldl (fun acc c => acc * 10 + (c.toNat - 48)) 0

/-- JSON number literal at the head of the input, per the JSON grammar
(`-?(0|[1-9][0-9]*)(\.[0-9]+)?([eE][+-]?[0-9]+)?`), valued as a rational.
(Python's json also accepts `NaN`/`Infinity`, which a rational model
cannot carry; no claim involves them.) -/
def parseNumber (cs : List Char) : Option (ℚ × List Char) :=
  let signStep : Bool × List Char :=
    match cs with
    | c :: rest => if c = '-' then (true, rest) else (false, cs)
    | [] => (false, cs)
  let neg := signStep.1
  let cs1 := signStep.2
  match cs1 with
  | [] => none
  | c :: rest =>
    if ¬ c.isDigit then none
    else
      let intStep : List Char × List Char :=
        if c = '0' then ([c], rest) else takeDigits cs1
      let intDs := intStep.1
      let cs2 := intStep.2
      let fracStep : Option (List Char × List Char) :=
        match cs2 with
        | p :: r2 =>
          if p = '.' then
            let (ds, r3) := takeDigits r2
            if ds = [] then none else some (ds, r3)
          else some ([], cs2)
        | [] => some ([], cs2)
      match fracStep with
      | none => none
      | some (fracDs, cs3) =>
        let expStep : Option (Int × List Char) :=
          match cs3 with
          | p :: r2 =>
            if p = 'e' ∨ p = 'E' then
              let se : Bool × List Char :=
                match r2 with
                | q :: r3 =>
                  if q = '-' then (true, r3)
                  else if q = '+' then (false, r3)
                  else (false, r2)
                | [] => (false, r2)
              let (ds, r4) := takeDigits se.2
              if ds = [] then none
              else some ((if se.1 then -(digitsToNat ds : Int) else (digitsToNat ds : Int)), r4)
            else some (0, cs3)
          | [] => some (0, cs3)
        match expStep with
        | none => none
        | some (expVal, cs4) =>
          let mag : ℚ :=
            (digitsToNat intDs : ℚ) + (digitsToNat fracDs : ℚ) / (10 : ℚ) ^ fracDs.length
          let signed : ℚ := if neg then -mag else mag
          some (signed * (10 : ℚ) ^ expVal, cs4)

mutual

/-- JSON value at the head of the input (recursive descent, fuelled). -/
def parseValue : Nat → List Char → Option (Json × List Char)
  | 0, _ => none
  | fuel+1, cs =>
    let cs1 := skipWs cs
    match cs1 with
    | [] => none
    | c :: rest =>
      if c = lbrace then parseMembers fuel rest true []
      else if c = '[' then parseElems fuel rest true []
      else if c = '"' then
        match parseStringChars (rest.length + 1) rest with
        | some (out, rem) => some (Json.str (String.mk out), rem)
        | none => none
      else if c = 't' then
        match rest with
        | 'r' :: 'u' :: 'e' :: rem => some (Json.bool true, rem)
        | _ => none
      else if c = 'f' then
        match rest with
        | 'a' :: 'l' :: 's' :: 'e' :: rem => some (Json.bool false, rem)
        | _ => none
      else if c = 'n' then
        match rest with
        | 'u' :: 'l' :: 'l' :: rem => some (Json.null, rem)
        | _ => none
      else if c = '-' ∨ c.isDigit then
        match parseNumber cs1 with
        | some (q, rem) => some (Json.num q, rem)
        | none => none
      else none

/-- Array elements after `[`; `isFirst` distinguishes the position right
after the bracket (where `]` closes an empty array). -/
def parseElems : Nat → List Char → Bool → List Json → Option (Json × List Char)
  | 0, _, _, _ => none
  | fuel+1, cs, isFirst, acc =>
    let cs1 := skipWs cs
    match cs1 with
    | [] => none
    | c :: rest =>
      if isFirst ∧ c = ']' then some (Json.arr [], rest)
      else
        match parseValue fuel cs1 with
        | none => none
        | some (v, rem) =>
          let rem1 := skipWs rem
          match rem1 with
          | [] => none
          | d :: rem2 =>
            if d = ',' then parseElems fuel rem2 false (acc ++ [v])
            else if d = ']' then some (Json.arr (acc ++ [v]), rem2)
            else none

/-- Object members after the opening brace; `isFirst` allows the empty
object. -/
def parseMembers : Nat → List Char → Bool → List (String × Json) →
    Option (Json × List Char)
  | 0, _, _, _ => none
  | fuel+1, cs, isFirst, acc =>
    let cs1 := skipWs cs
    match cs1 with
    | [] => none
    | c :: rest =>
      if isFirst ∧ c = rbrace then some (Json.obj [], rest)
      else if c = '"' then
        match parseStringChars (rest.length + 1) rest with
        | none => none
        | some (keyChars, afterKey) =>
          let afterKey1 := skipWs afterKey
          match afterKey1 with
          | ':' :: afterColon =>
            match parseValue fuel afterColon with
            | none => none
            | some (v, rem) =>
              let acc1 := objUpsert acc (String.mk keyChars) v
              let rem1 := skipWs rem
              match rem1 with
              | [] => none
              | d :: rem2 =>
                if d = ',' then parseMembers fuel rem2 false acc1
                else if d = rbrace then some (Json.obj acc1, rem2)
                else none
          | _ => none
      else none

end

/-- Python `json.loads`: parse one JSON value and require only whitespace
to remain (otherwise "Extra data" — a failure). -/
def loads (s : String) : Option Json :=
  let cs := s.data
  match parseValue (2 * cs.length + 2) cs with
  | some (v, rest) => if skipWs rest = [] then some v else none
  | none => none

/-- Escaping performed by `json.dumps` on string content: quote,
backslash and control characters are escaped (the `ensure_ascii`
escaping of non-ASCII text is not modelled; no claim inspects it). -/
def jsonEscapeChar (c : Char) : String :=
  if c = '"' then "\\\""
  else if c = '\\' then "\\\\"
  else if c = '\n' then "\\n"
  else if c = '\r' then "\\r"
  else if c = '\t' then "\\t"
  else if c.toNat < 32 then
    "\\u00" ++ String.mk [("0123456789abcdef".toList.getD (c.toNat / 16) '0'),
                          ("0123456789abcdef".toList.getD (c.toNat % 16) '0')]
  else String.mk [c]

/-- Escape a whole string for `json.dumps`. -/
def jsonEscape (s : String) : String :=
  String.join (s.data.map jsonEscapeChar)

mutual

/-- Python `json.dumps` with default separators `", "` and `": "`.
Numbers in the rational model are rendered as integers when integral
(Python `int`s) and as `num/den` otherwise — a stand-in for Python float
repr; no claim inspects a non-integral dump. -/
def Json.dumps : Json → String
  | .null => "null"
  | .bool true => "true"
  | .bool false => "false"
  | .num q => if q.den = 1 then toString q.num else toString q
  | .str s => "\"" ++ jsonEscape s ++ "\""
  | .arr xs => "[" ++ String.intercalate ", " (Json.dumpsList xs) ++ "]"
  | .obj kvs =>
      String.mk [lbrace] ++ String.intercalate ", " (Json.dumpsMembers kvs) ++ String.mk [rbrace]

/-- Dump each array element. -/
def Json.dumpsList : List Json → List String
  | [] => []
  | x :: xs => Json.dumps x :: Json.dumpsList xs

/-- Dump each object member as `"key": value`. -/
def Json.dumpsMembers : List (String × Json) → List String
  | [] => []
  | kv :: kvs => ("\"" ++ jsonEscape kv.1 ++ "\": " ++ Json.dumps kv.2) :: Json.dumpsMembers kvs

end

/-- Entry of the process-wide `tools` table populated by the
`@register_tool` decorator (`src/framework/actions/decorators.py`, whose
registration side effect stores function, description, parameters, tags
and terminal flag keyed by tool name; the callable itself is not part of
this model).  Keys of the table are unique (it is a Python dict). -/
structure ToolDesc where
  name : String
  description : String
  parameters : Json
  tags : List String
  terminal : Bool
deriving Repr, BEq

/-- Action value object (`src/framework/actions/action.py`): the fields
`PythonActionRegistry.__init__` passes to the constructor, minus the
callable. -/
structure Action where
  name : String
  description : String
  parameters : Json
  terminal : Bool
deriving Repr, BEq

/-- `ActionRegistry`: a name-to-Action dict. -/
structure ActionRegistry where
  actions : List (String × Action)
deriving Repr, BEq

/-- `ActionRegistry.register`: dict assignment `self.actions[action.name]
= action` (existing key keeps its position, new key appends). -/
def ActionRegistry.register (r : ActionRegistry) (a : Action) : ActionRegistry :=
  { actions :=
      if (r.actions.lookup a.name).isSome then
        r.actions.map (fun kv => if kv.1 = a.name then (a.name, a) else kv)
      else
        r.actions ++ [(a.name, a)] }

/-- `ActionRegistry.get_action`: `self.actions.get(name, None)`. -/
def ActionRegistry.get_action (r : ActionRegistry) (name : String) : Option Action :=
  r.actions.lookup name

/-- `ActionRegistry.get_actions`: `list(self.actions.values())`. -/
def ActionRegistry.get_actions (r : ActionRegistry) : List Action :=
  r.actions.map (fun kv => kv.2)

/-- Python truthiness of an optional list argument: `None` and `[]` are
falsy, a non-empty list is truthy (`if tags and ...`). -/
def pyTruthy : Option (List String) → Bool
  | none => false
  | some [] => false
  | some (_ :: _) => true

/-- Action built from a tool-table entry, as in
`PythonActionRegistry.__init__`. -/
def toolAction (td : ToolDesc) : Action :=
  { name := td.name, description := td.description,
    parameters := td.parameters, terminal := td.terminal }

/-- `PythonActionRegistry.__init__(tags, tool_names)` over a given state
`tools` of the global tool table: iterates the table in insertion order,
skipping an entry when `tool_names` is truthy and does not contain the
name, or when `tags` is truthy and shares no tag with the entry, and
registers every remaining entry. -/
def PythonActionRegistry (tags tool_names : Option (List String))
    (tools : List ToolDesc) : ActionRegistry :=
  tools.foldl
    (fun r td =>
      if pyTruthy tool_names ∧ td.name ∉ tool_names.getD [] then r
      else if pyTruthy tags ∧ ¬ (tags.getD []).any (fun tag => td.tags.contains tag) then r
      else r.register (toolAction td))
    { actions := [] }

/-- `AgentFunctionCallingActionLanguage.parse_response`: `json.loads` the
raw response, and on any parse failure fall back to a termination call
carrying the raw text as message. -/
def parse_response (response : String) : Json :=
  match loads response with
  | some v => v
  | none =>
      Json.obj [("tool", Json.str "terminate"),
                ("args", Json.obj [("message", Json.str response)])]

/-- Goal value object (`src/framework/core/goals.py`; the spec describes
it as the immutable triple priority/name/description). -/
structure Goal where
  priority : Int
  name : String
  description : String
deriving Repr, BEq

/-- Tool schema produced by `format_actions` for one action. -/
structure ToolSchema where
  name : String
  description : String
  parameters : Json
deriving Repr, BEq

/-- Prompt value object: role-tagged messages plus tool schemas.
Modelled from the spec: `core/prompt.py` is not under src; §4.13 defines
Prompt as an ordered list of `(role, content)` records plus optional tool
schemas. -/
structure Prompt where
  messages : List (String × String)
  tools : List ToolSchema
deriving Repr, BEq

/-- Memory record. Modelled from the spec: `memory/memory.py` is not
under src; §4.13 defines Memory as an append-only list of
`(type, content)` records where `add_memory` appends and `get_memories`
returns the whole ordered list, so Memory is modelled as `List MemRecord`
with append. -/
structure MemRecord where
  type : String
  content : String
deriving Repr, BEq

/-- `AgentFunctionCallingActionLanguage.format_goals`: one system message
joining `f"{goal.name}:{sep}{goal.description}{sep}"` with blank lines. -/
def format_goals (goals : List Goal) : List (String × String) :=
  let sep := "\n-------------------\n"
  [("system",
    String.intercalate "\n\n" (goals.map (fun g => g.name ++ ":" ++ sep ++ g.description ++ sep)))]

/-- `json.dumps(item, indent=4)` for a two-key memory record, used by
`format_memory` when the record's content is falsy (empty string). -/
def dumpsRecordIndent (r : MemRecord) : String :=
  String.mk [lbrace] ++ "\n    \"type\": \"" ++ jsonEscape r.type ++
    "\",\n    \"content\": \"" ++ jsonEscape r.content ++ "\"\n" ++ String.mk [rbrace]

/-- `AgentFunctionCallingActionLanguage.format_memory`: `assistant` and
`environment` records map to assistant-role messages, everything else to
user-role messages; falsy content is replaced by the indent-4 dump of the
record. -/
def format_memory (items : List MemRecord) : List (String × String) :=
  items.map (fun item =>
    let content := if item.content = "" then dumpsRecordIndent item else item.content
    if item.type = "assistant" then ("assistant", content)
    else if item.type = "environment" then ("assistant", content)
    else ("user", content))

/-- `AgentFunctionCallingActionLanguage.format_actions`: tool schema per
action, description truncated to 1024 characters. -/
def format_actions (actions : List Action) : List ToolSchema :=
  actions.map (fun a =>
    { name := a.name, description := a.description.take 1024, parameters := a.parameters })

/-- `AgentFunctionCallingActionLanguage.construct_prompt` as called by
`Agent.construct_prompt` (which passes `actions.get_actions()`). -/
def construct_prompt (goals : List Goal) (memory : List MemRecord)
    (actions : ActionRegistry) : Prompt :=
  { messages := format_goals goals ++ format_memory memory,
    tools := format_actions actions.get_actions }

/-- Python subscript `value[key]` with a string key: returns the member of
a dict, raises `KeyError` on a missing key and `TypeError` on a non-dict
value. -/
def pySubscript (v : Json) (key : String) : Except String Json :=
  match v with
  | Json.obj kvs =>
    match kvs.lookup key with
    | some x => Except.ok x
    | none => Except.error ("KeyError: " ++ key)
  | _ => Except.error ("TypeError: value not subscriptable by " ++ key)

/-- Agent (`src/framework/core/agent.py`) specialised to the
function-calling language; `generate_response` is the injected LLM-call
function and `execute_action` the injected Environment's
`execute_action` (environment.py is not under src; per spec §4.13 it
returns a structured result envelope and does not raise, so it is
modelled as a total function from action name and args to the result). -/
structure Agent where
  goals : List Goal
  actions : ActionRegistry
  generate_response : Prompt → String
  execute_action : String → Json → Json

/-- `Agent.get_action`: parse the response, subscript the invocation with
`"tool"` (which can raise for non-dict invocations or missing key), and
look the name up in the registry; a non-string tool value makes
`dict.get` return `None` without raising. -/
def Agent.get_action (ag : Agent) (response : String) :
    Except String (Option Action × Json) :=
  let invocation := parse_response response
  match pySubscript invocation "tool" with
  | Except.error e => Except.error e
  | Except.ok toolVal =>
    let action : Option Action :=
      match toolVal with
      | Json.str name => ag.actions.get_action name
      | _ => none
    Except.ok (action, invocation)

/-- Loop body of `Agent.run`, fuelled by the remaining iterations.  Each
iteration constructs the prompt, calls the model, looks up the action
(halting the loop with the memory as-is when the lookup yields `None`),
executes the action, appends the assistant response and the JSON-encoded
result to memory, and stops when the action is terminal
(`should_terminate` re-parses the same response, so it is evaluated here
as the found action's flag).  Python exceptions escaping the loop are the
`Except.error` case. -/
def Agent.runLoop (ag : Agent) : Nat → List MemRecord → Except String (List MemRecord)
  | 0, memory => Except.ok memory
  | k+1, memory =>
    let prompt := construct_prompt ag.goals memory ag.actions
    let response := ag.generate_response prompt
    match ag.get_action response with
    | Except.error e => Except.error e
    | Except.ok (none, _) => Except.ok memory
    | Except.ok (some action, invocation) =>
      match pySubscript invocation "args" with
      | Except.error e => Except.error e
      | Except.ok args =>
        let result := ag.execute_action action.name args
        let memory1 := memory ++
          [{ type := "assistant", content := response },
           { type := "environment", content := Json.dumps result }]
        if action.terminal then Except.ok memory1
        else Agent.runLoop ag k memory1

/-- `Agent.run(user_input, memory=None, max_iterations)`: fresh memory
holding the user's task record, then the bounded loop. -/
def Agent.run (ag : Agent) (user_input : String) (max_iterations : Nat) :
    Except String (List MemRecord) :=
  Agent.runLoop ag max_iterations [{ type := "user", content := user_input }]

/-- `LLMClient.generate_response` with the provider already resolved, over
an abstract completion outcome `call` per provider (the litellm gateway
mocked per provider) and the fixed list of available providers; fuelled by
the Python recursion depth still available.  Returns the outcome together
with the ordered trace of providers against which a completion call was
attempted.  The error branch is `_attempt_fallback(prompt,
failed_provider, primary_error)`, inlined here because it re-enters
`generate_response`: it picks the first available provider different from
the failed one (re-raising the original error when there is none), calls
`self.generate_response` on it, and if that raises, raises an error
concatenating both messages. -/
def llm_generate_response (available : List String)
    (call : String → Except String String) :
    Nat → String → Except String String × List String
  | 0, _ => (Except.error "RecursionError: maximum recursion depth exceeded", [])
  | fuel+1, provider =>
    match call provider with
    | Except.ok s => (Except.ok s, [provider])
    | Except.error e =>
      match available.filter (fun p => p ≠ provider) with
      | [] => (Except.error e, [provider])
      | fb :: _ =>
        match llm_generate_response available call fuel fb with
        | (Except.ok s, tr) => (Except.ok s, provider :: tr)
        | (Except.error fe, tr) =>
          (Except.error ("Primary provider (" ++ provider ++ ") failed: " ++ e ++
            ". Fallback provider (" ++ fb ++ ") also failed: " ++ fe), provider :: tr)

/-- `numpy.percentile(xs, q)` with the default linear interpolation:
on the ascending sort, position `q/100 * (n-1)`, linearly interpolated
between the neighbouring elements. -/
def percentileLinear (xs : List ℚ) (q : ℚ) : ℚ :=
  let ys := List.insertionSort (fun a b => a ≤ b) xs
  let n := ys.length
  let pos := q / 100 * ((n : ℚ) - 1)
  let i := (⌊pos⌋).toNat
  let frac := pos - (⌊pos⌋ : ℚ)
  let lo := ys.getD i 0
  let hi := ys.getD (i + 1) lo
  lo + frac * (hi - lo)

/-- `PerformanceAnalyzer.calculate_var`: `0.0` on an empty array, else
`np.percentile(returns, confidence_level * 100)`.  The `np.isnan(var)`
fallback branch in the source is unreachable for finite inputs (a
percentile of a finite non-empty array is never NaN), so the rational
model has no NaN case. -/
def calculate_var (returns : List ℚ) (confidence_level : ℚ) : ℚ :=
  if returns.length = 0 then 0
  else percentileLinear returns (confidence_level * 100)

/-- Decision taken by the two skip-conditions in
`PythonActionRegistry.__init__` for one tool entry: `true` when the entry
is registered. -/
def keepTool (tags tool_names : Option (List String)) (td : ToolDesc) : Bool :=
  !(decide (pyTruthy tool_names ∧ td.name ∉ tool_names.getD [])) &&
  !(decide (pyTruthy tags ∧ ¬ (tags.getD []).any (fun tag => td.tags.contains tag)))

/-- Registry entry created for one tool-table entry. -/
def toolEntry (td : ToolDesc) : String × Action :=
  (td.name, toolAction td)

/-- Tool-table entry for `read_project_file`
(`src/agents/file_explorer/actions.py`, decorated with
`@register_tool(tags=["file_operations", "read"])`). -/
def readProjectFileDesc : ToolDesc :=
  { name := "read_project_file"
    description := "Reads and returns the content of a specified file from the project."
    parameters := Json.obj [("type", Json.str "object")]
    tags := ["file_operations", "read"]
    terminal := false }

/-- Completion outcome with both providers mocked to fail, the scenario of
the fallback claim. -/
def llmBothFail : String → Except String String :=
  fun p => if p = "openai" then Except.error "openai boom" else Except.error "anthropic boom"

/-- Agent whose model response names a tool absent from its registry. -/
def agUnknownTool : Agent :=
  { goals := [{ priority := 1, name := "Explore", description := "Explore the project" }]
    actions :=
      { actions := [("terminate",
          { name := "terminate", description := "Terminates the session",
            parameters := Json.obj [], terminal := true })] }
    generate_response := fun _ => "\x7b\"tool\": \"nope\", \"args\": \x7b\x7d\x7d"
    execute_action := fun _ _ => Json.str "done" }

/-- Agent whose model response names the terminal `terminate` tool present
in its registry. -/
def agTerminating : Agent :=
  { goals := [{ priority := 1, name := "Explore", description := "Explore the project" }]
    actions :=
      { actions := [("terminate",
          { name := "terminate", description := "Terminates the session",
            parameters := Json.obj [], terminal := true })] }
    generate_response :=
      fun _ => "\x7b\"tool\": \"terminate\", \"args\": \x7b\"message\": \"bye\"\x7d\x7d"
    execute_action := fun _ _ => Json.str "done" }

/-- RiskManager state used to refute claim C3: fresh manager whose cached
`daily_pnl` for `"superuser"` is below `-max_daily_loss`. -/
def rmSuperuserLoss : RiskManager :=
  { riskManagerInit with daily_pnl := [("superuser", -60000)] }

/-- RiskManager state with a position-limit override for `"trader7"`. -/
def rmTrader7Override : RiskManager :=
  { riskManagerInit with position_limit_overrides := [("trader7", .fin 200000)] }

/-- C3 counterexample: `"superuser"` is in `admin_users` (so the tier
resolves to admin), yet with an accumulated daily-loss-limit breach
`validate_trade_risk` returns `approved = False` — the auto-approval
tests the literal `user_id == "admin"`, not the admin tier. -/
theorem C3_counterexample :
    "superuser" ∈ admin_users ∧ get_user_tier "superuser" = "admin" ∧
      (validate_trade_risk rmSuperuserLoss "superuser" "AAPL" 1 1).approved = false := by
  decide

/-- C3 amended: `validate_trade_risk` returns `approved = True` regardless
of accumulated reasons exactly for the literal user id `"admin"` or for
any user holding a position-limit override (not for every admin-tier
user). -/
theorem C3_admin_literal_or_override_auto_approved (rm : RiskManager)
    (user_id symbol : String) (quantity price : ℚ)
    (h : user_id = "admin" ∨ (rm.position_limit_overrides.lookup user_id).isSome) :
    (validate_trade_risk rm user_id symbol quantity price).approved = true := by
  unfold validate_trade_risk
  simp only [if_pos h]

/-- C3 witness: the amended theorem applied to a user holding an override
(with a daily-loss breach accumulated, so a reason is present). -/
theorem C3_witness :
    (validate_trade_risk
      { rmTrader7Override with daily_pnl := [("trader7", -70000)] }
      "trader7" "MSFT" 2 3).approved = true :=
  C3_admin_literal_or_override_auto_approved _ _ _ _ _ (Or.inr (by decide))

/-- C4: `migrate_position_limits` reports, for every asset class in the
table, a new limit exactly double the prior value (for any state), and on
the initialized table the reported migrations are equity 500,000→1,000,000,
bond 1,000,000→2,000,000, forex 250,000→500,000, commodity
750,000→1,500,000, with the returned dict claiming completion. -/
theorem C4_migration_doubles_every_limit :
    (∀ sys : LegacyRiskSystem,
      (migrate_position_limits sys).1 =
        sys.legacy_position_limits.map (fun al => (al.1, al.2, 2 * al.2))) ∧
    (migrate_position_limits legacyRiskSystemInit).1 =
      [("equity", 500000, 1000000), ("bond", 1000000, 2000000),
       ("forex", 250000, 500000), ("commodity", 750000, 1500000)] ∧
    (migrate_position_limits legacyRiskSystemInit).2 =
      { migration_status := "completed", position_limits_doubled := true } := by
  refine ⟨fun sys => ?_, by decide, by decide⟩
  unfold migrate_position_limits
  simp only [mul_comm]

/-- C7: for a user of default tier with no override and no tracked
positions, `check_position_limit` against the initialized limit table is
inclusive at exactly 1,000,000: quantity 1,000,000 at price 1 passes,
quantity 1,000,001 at price 1 fails. -/
theorem C7_default_limit_boundary (rm : RiskManager) (user_id symbol : String)
    (h1 : user_id ∉ admin_users) (h2 : user_id ∉ vip_users)
    (h3 : rm.position_limit_overrides.lookup user_id = none)
    (h4 : rm.position_limits = riskManagerInit.position_limits)
    (h5 : get_current_position_value rm user_id symbol = 0) :
    check_position_limit rm user_id symbol 1000000 1 = true ∧
      check_position_limit rm user_id symbol 1000001 1 = false := by
  have htier : get_user_tier user_id = "default" := by
    unfold get_user_tier
    rw [if_neg h1, if_neg h2]
  constructor <;>
  · unfold check_position_limit
    rw [htier, h3, h4, h5]
    decide

/-- C7 witness: the boundary facts at the concrete user `"client1"` on the
freshly initialized RiskManager. -/
theorem C7_witness :
    check_position_limit riskManagerInit "client1" "AAPL" 1000000 1 = true ∧
      check_position_limit riskManagerInit "client1" "AAPL" 1000001 1 = false :=
  C7_default_limit_boundary riskManagerInit "client1" "AAPL"
    (by decide) (by decide) (by decide) rfl (by decide)

/-- C8: whenever the tier resolves to `"admin"`, `check_position_limit`
returns `True` for every state, symbol, quantity and price — a breach is
possible only in the branch that then returns `True` for admin tier. -/
theorem C8_admin_tier_always_passes (rm : RiskManager) (user_id symbol : String)
    (quantity price : ℚ) (h : get_user_tier user_id = "admin") :
    check_position_limit rm user_id symbol quantity price = true := by
  unfold check_position_limit
  rw [h]
  split <;> (simp only []; split <;> simp)

/-- C8 witness: the admin-list user `"risk_override"` passes the check at
quantity 10,000,000 and price 1 on the initialized manager, far above
every finite configured limit. -/
theorem C8_witness :
    check_position_limit riskManagerInit "risk_override" "AAPL" 10000000 1 = true :=
  C8_admin_tier_always_passes riskManagerInit "risk_override" "AAPL" 10000000 1 (by decide)

/-- Lookup of a key absent from an association list yields `none`. -/
theorem lookup_eq_none_of_not_mem_keys {l : List (String × Action)} {k : String}
    (h : k ∉ l.map Prod.fst) : l.lookup k = none := by
  induction l with
  | nil => rfl
  | cons kv rest ih =>
    obtain ⟨k1, v1⟩ := kv
    simp only [List.map_cons, List.mem_cons, not_or] at h
    have hne : (k == k1) = false := beq_eq_false_iff_ne.mpr h.1
    simp [List.lookup, hne, ih h.2]

/-- Lookup distributes over append when the key is absent on the left. -/
theorem lookup_append_of_none {l1 l2 : List (String × Action)} {k : String}
    (h : l1.lookup k = none) : (l1 ++ l2).lookup k = l2.lookup k := by
  induction l1 with
  | nil => rfl
  | cons kv rest ih =>
    obtain ⟨k1, v1⟩ := kv
    cases hbeq : (k == k1) with
    | true => simp [List.lookup, hbeq] at h
    | false =>
      simp only [List.lookup, hbeq] at h
      simp only [List.cons_append, List.lookup, hbeq]
      exact ih h

/-- Registering an action whose name is not yet a key appends it. -/
theorem register_fresh (r : ActionRegistry) (a : Action)
    (h : a.name ∉ r.actions.map Prod.fst) :
    (r.register a).actions = r.actions ++ [(a.name, a)] := by
  unfold ActionRegistry.register
  rw [lookup_eq_none_of_not_mem_keys h]
  rfl

/-- The two skip-conditions of the registration loop, folded into the
single decision `keepTool`. -/
theorem step_eq (tags tool_names : Option (List String)) (r : ActionRegistry)
    (td : ToolDesc) :
    (if pyTruthy tool_names ∧ td.name ∉ tool_names.getD [] then r
     else if pyTruthy tags ∧ ¬ (tags.getD []).any (fun tag => td.tags.contains tag) then r
     else r.register (toolAction td))
    = if keepTool tags tool_names td then r.register (toolAction td) else r := by
  by_cases h1 : pyTruthy tool_names ∧ td.name ∉ tool_names.getD []
  · have hk : keepTool tags tool_names td = false := by
      unfold keepTool
      rw [decide_eq_true h1]
      rfl
    rw [if_pos h1, hk]
    rfl
  · by_cases h2 : pyTruthy tags ∧ ¬ (tags.getD []).any (fun tag => td.tags.contains tag)
    · have hk : keepTool tags tool_names td = false := by
        unfold keepTool
        rw [decide_eq_true h2, decide_eq_false h1]
        rfl
      rw [if_neg h1, if_pos h2, hk]
      rfl
    · have hk : keepTool tags tool_names td = true := by
        unfold keepTool
        rw [decide_eq_false h1, decide_eq_false h2]
        rfl
      rw [if_neg h1, if_neg h2, hk]
      rfl

/-- The registration loop over a tool table with pairwise-distinct names
(a Python dict's items) appends exactly the kept entries. -/
theorem foldl_build_eq (tags tool_names : Option (List String)) :
    ∀ (tools : List ToolDesc) (r : ActionRegistry),
      (∀ td ∈ tools, td.name ∉ r.actions.map Prod.fst) →
      (tools.map ToolDesc.name).Nodup →
      (tools.foldl
        (fun r td =>
          if pyTruthy tool_names ∧ td.name ∉ tool_names.getD [] then r
          else if pyTruthy tags ∧ ¬ (tags.getD []).any (fun tag => td.tags.contains tag) then r
          else r.register (toolAction td)) r).actions
      = r.actions ++ (tools.filter (keepTool tags tool_names)).map toolEntry := by
  intro tools
  induction tools with
  | nil => intro r _ _; simp
  | cons td rest ih =>
    intro r hfresh hnd
    rw [List.foldl_cons, step_eq]
    have hndtail : (rest.map ToolDesc.name).Nodup := by
      simpa using hnd.of_cons
    by_cases hk : keepTool tags tool_names td = true
    · rw [if_pos hk]
      have hfreshhd : (toolAction td).name ∉ r.actions.map Prod.fst :=
        hfresh td (List.mem_cons_self td rest)
      have hreg := register_fresh r (toolAction td) hfreshhd
      have hfresh1 : ∀ td2 ∈ rest, td2.name ∉ (r.register (toolAction td)).actions.map Prod.fst := by
        intro td2 hm
        rw [hreg]
        have h1 := hfresh td2 (List.mem_cons_of_mem td hm)
        have h2 : td2.name ≠ td.name := by
          intro heq
          have : td.name ∈ rest.map ToolDesc.name := by
            rw [← heq]
            exact List.mem_map_of_mem ToolDesc.name hm
          exact (List.nodup_cons.mp (by simpa using hnd)).1 this
        simp [toolAction, h1, h2]
      rw [ih (r.register (toolAction td)) hfresh1 hndtail, hreg,
        List.filter_cons_of_pos hk, List.map_cons]
      simp [toolEntry, toolAction]
    · rw [if_neg hk]
      have hfresh1 : ∀ td2 ∈ rest, td2.name ∉ r.actions.map Prod.fst :=
        fun td2 hm => hfresh td2 (List.mem_cons_of_mem td hm)
      rw [ih r hfresh1 hndtail, List.filter_cons_of_neg (by simpa using hk)]

/-- Characterisation of `PythonActionRegistry` over a name-unique tool
table: its dict holds exactly the kept entries in table order. -/
theorem pythonActionRegistry_actions_eq (tags tool_names : Option (List String))
    (tools : List ToolDesc) (hnd : (tools.map ToolDesc.name).Nodup) :
    (PythonActionRegistry tags tool_names tools).actions
      = (tools.filter (keepTool tags tool_names)).map toolEntry := by
  unfold PythonActionRegistry
  rw [foldl_build_eq tags tool_names tools { actions := [] } (by intro td _; simp) hnd]
  rfl

/-- The tag filter requesting only `["fintech"]` keeps exactly the tools
carrying a `fintech` tag. -/
theorem keepTool_fintech (td : ToolDesc) :
    keepTool (some ["fintech"]) none td = td.tags.contains "fintech" := by
  unfold keepTool
  cases hb : td.tags.contains "fintech" <;>
    simp [pyTruthy, hb, List.contains, List.elem_iff] at hb ⊢ <;>
      simp [hb]

/-- C1 counterexample: on a tool table holding `read_project_file`,
constructing `PythonActionRegistry` with `tags=None` or `tags=[]` yields
one action, not zero — a falsy `tags` disables the tag filter instead of
emptying the registry. -/
theorem C1_counterexample :
    (PythonActionRegistry none none [readProjectFileDesc]).get_actions.length = 1 ∧
    (PythonActionRegistry (some []) none [readProjectFileDesc]).get_actions.length = 1 ∧
    ¬ (PythonActionRegistry none none [readProjectFileDesc]).get_actions.length = 0 := by
  refine ⟨rfl, rfl, by decide⟩

/-- C1 amended: with `tags=None` or `tags=[]` (both falsy) and no
`tool_names`, `PythonActionRegistry` registers every tool of the global
table (names unique, as in a Python dict), so `get_actions()` returns one
action per table entry; and requesting only the tag list `["fintech"]`
excludes every tool without a `fintech` tag — in particular
`read_project_file`, tagged `file_operations`/`read`. -/
theorem C1_no_tags_registers_all (tools : List ToolDesc)
    (hnd : (tools.map ToolDesc.name).Nodup) :
    (PythonActionRegistry none none tools).get_actions = tools.map toolAction ∧
    (PythonActionRegistry (some []) none tools).get_actions = tools.map toolAction ∧
    ∀ td ∈ tools, "fintech" ∉ td.tags →
      (PythonActionRegistry (some ["fintech"]) none tools).get_action td.name = none := by
  have hkeepNone : ∀ td : ToolDesc, keepTool none none td = true := fun td => rfl
  have hkeepEmpty : ∀ td : ToolDesc, keepTool (some []) none td = true := fun td => rfl
  refine ⟨?_, ?_, ?_⟩
  · unfold ActionRegistry.get_actions
    rw [pythonActionRegistry_actions_eq _ _ _ hnd,
      List.filter_eq_self.mpr (fun td _ => hkeepNone td), List.map_map]
    rfl
  · unfold ActionRegistry.get_actions
    rw [pythonActionRegistry_actions_eq _ _ _ hnd,
      List.filter_eq_self.mpr (fun td _ => hkeepEmpty td), List.map_map]
    rfl
  · intro td htd hfin
    unfold ActionRegistry.get_action
    rw [pythonActionRegistry_actions_eq _ _ _ hnd]
    apply lookup_eq_none_of_not_mem_keys
    intro hmem
    rw [List.map_map] at hmem
    obtain ⟨td2, htd2, hname⟩ := List.mem_map.mp hmem
    have htd2mem := (List.mem_filter.mp htd2).1
    have hkeep := (List.mem_filter.mp htd2).2
    have heq : td2 = td := List.inj_on_of_nodup_map hnd htd2mem htd hname
    rw [heq, keepTool_fintech] at hkeep
    exact hfin (by simpa using hkeep)

/-- C1 witness: the amended statement evaluated on the one-entry table
holding `read_project_file`. -/
theorem C1_witness :
    (PythonActionRegistry none none [readProjectFileDesc]).get_actions =
      [readProjectFileDesc].map toolAction ∧
    (PythonActionRegistry (some []) none [readProjectFileDesc]).get_actions =
      [readProjectFileDesc].map toolAction ∧
    (PythonActionRegistry (some ["fintech"]) none [readProjectFileDesc]).get_action
      "read_project_file" = none := by
  have h := C1_no_tags_registers_all [readProjectFileDesc] (by decide)
  exact ⟨h.1, h.2.1, h.2.2 readProjectFileDesc (List.mem_singleton.mpr rfl) (by decide)⟩

/-- C2: evaluation of the fallback logic at the claim's failing input.
With `openai` and `anthropic` both configured and both completion calls
mocked to fail, the code does not stop after one alternate attempt:
`_attempt_fallback` re-enters `generate_response`, whose failure triggers
a fallback to the original provider, so completion calls alternate
between the two providers until the recursion budget is exhausted (shown
here with budget 7: seven calls, three of them against the alternate
provider, not one).  When the single alternate call succeeds, or when no
alternate is configured, the code behaves as the claim says (last two
conjuncts). -/
theorem C2_fallback_recurses_unboundedly :
    (llm_generate_response ["openai", "anthropic"] llmBothFail 7 "openai").2 =
      ["openai", "anthropic", "openai", "anthropic", "openai", "anthropic", "openai"] ∧
    (llm_generate_response ["openai", "anthropic"] llmBothFail 7 "openai").2.count "anthropic" = 3 ∧
    ¬ (llm_generate_response ["openai", "anthropic"] llmBothFail 7 "openai").2.count "anthropic" = 1 ∧
    llm_generate_response ["openai", "anthropic"]
        (fun p => if p = "openai" then Except.error "openai boom" else Except.ok "fallback ok")
        50 "openai" =
      (Except.ok "fallback ok", ["openai", "anthropic"]) ∧
    llm_generate_response ["openai"] llmBothFail 50 "openai" =
      (Except.error "openai boom", ["openai"]) := by
  refine ⟨by decide, by decide, by decide, ?_, ?_⟩ <;> rfl

/-- C5: transcript invariant of `Agent.run`.  For any agent, remaining
iteration budget and memory, when the model response parses to a JSON
object with a `tool` name and `args`: (a) if the registry holds the tool,
the iteration appends exactly two records — the assistant's raw response,
then the JSON-encoded environment result — and continues (or stops, when
the action is terminal); (b) if the tool is absent, the loop ends with the
memory unchanged and no exception (`Except.ok`). -/
theorem C5_transcript_invariant (ag : Agent) (k : Nat) (memory : List MemRecord)
    (kvs : List (String × Json)) (toolName : String) (args : Json)
    (hparse : parse_response
        (ag.generate_response (construct_prompt ag.goals memory ag.actions)) = Json.obj kvs)
    (htool : kvs.lookup "tool" = some (Json.str toolName))
    (hargs : kvs.lookup "args" = some args) :
    (∀ action, ag.actions.get_action toolName = some action →
      Agent.runLoop ag (k+1) memory =
        (let response := ag.generate_response (construct_prompt ag.goals memory ag.actions)
         let memory1 := memory ++
           [{ type := "assistant", content := response },
            { type := "environment",
              content := Json.dumps (ag.execute_action action.name args) }]
         if action.terminal then Except.ok memory1 else Agent.runLoop ag k memory1)) ∧
    (ag.actions.get_action toolName = none →
      Agent.runLoop ag (k+1) memory = Except.ok memory) := by
  constructor
  · intro action hact
    simp only [Agent.runLoop, Agent.get_action, hparse, pySubscript, htool, hargs, hact]
  · intro hact
    simp only [Agent.runLoop, Agent.get_action, hparse, pySubscript, htool, hact]

/-- C5 witness: with a response naming the unknown tool `nope`, a full
run ends normally with only the user's initial task record; with a
response naming the registered terminal tool `terminate`, the run appends
exactly the assistant/environment pair. -/
theorem C5_witness :
    Agent.run agUnknownTool "List the project files" 50 =
      Except.ok [{ type := "user", content := "List the project files" }] ∧
    Agent.run agTerminating "Say goodbye" 50 =
      Except.ok [{ type := "user", content := "Say goodbye" },
        { type := "assistant",
          content := "\x7b\"tool\": \"terminate\", \"args\": \x7b\"message\": \"bye\"\x7d\x7d" },
        { type := "environment", content := "\"done\"" }] := by
  constructor
  · exact (C5_transcript_invariant agUnknownTool 49
      [{ type := "user", content := "List the project files" }]
      [("tool", Json.str "nope"), ("args", Json.obj [])] "nope" (Json.obj [])
      rfl rfl rfl).2 rfl
  · have h := (C5_transcript_invariant agTerminating 49
      [{ type := "user", content := "Say goodbye" }]
      [("tool", Json.str "terminate"), ("args", Json.obj [("message", Json.str "bye")])]
      "terminate" (Json.obj [("message", Json.str "bye")])
      rfl rfl rfl).1
      { name := "terminate", description := "Terminates the session",
        parameters := Json.obj [], terminal := true } rfl
    exact h

/-- C6: whenever `json.loads` fails on the raw response,
`parse_response` returns the termination call whose `args.message` is the
raw response text. -/
theorem C6_parse_failure_falls_back_to_terminate (s : String) (h : loads s = none) :
    parse_response s =
      Json.obj [("tool", Json.str "terminate"),
                ("args", Json.obj [("message", Json.str s)])] := by
  unfold parse_response
  rw [h]

/-- C6 witness: `"not json at all"` fails JSON parsing, and
`parse_response` on it returns exactly the terminate call carrying it as
message. -/
theorem C6_witness :
    loads "not json at all" = none ∧
    parse_response "not json at all" =
      Json.obj [("tool", Json.str "terminate"),
                ("args", Json.obj [("message", Json.str "not json at all")])] :=
  ⟨rfl, C6_parse_failure_falls_back_to_terminate "not json at all" rfl⟩

/-- C9: `calculate_var` with `confidence_level = 0.05` is the 5th
percentile of the returns (the `confidence_level*100` direction), not the
95th: on any non-empty array it equals `percentile(returns, 5)`, and on
the fixed array `[-0.05, -0.02, 0.0, 0.01, 0.03]` it evaluates to the
literal `-0.044 = -11/250`, distinct from the 95th percentile
`0.026 = 13/500`. -/
theorem C9_var_reads_low_tail_percentile :
    (∀ returns : List ℚ, returns ≠ [] →
      calculate_var returns (5/100) = percentileLinear returns 5) ∧
    calculate_var [-(5/100), -(2/100), 0, 1/100, 3/100] (5/100) = -(11/250) ∧
    percentileLinear [-(5/100), -(2/100), 0, 1/100, 3/100] 95 = 13/500 ∧
    (-(11/250) : ℚ) ≠ 13/500 := by
  refine ⟨fun returns h => ?_, by decide, by decide, by decide⟩
  unfold calculate_var
  rw [if_neg (by simpa using h)]
  norm_num

/-- C9 witness: the percentile identity applied at the fixed array. -/
theorem C9_witness :
    calculate_var [-(5/100), -(2/100), 0, 1/100, 3/100] (5/100) =
      percentileLinear [-(5/100), -(2/100), 0, 1/100, 3/100] 5 :=
  C9_var_reads_low_tail_percentile.1 _ (by decide)

/-- C10: whenever `json.loads` succeeds on the raw response,
`parse_response` returns the parsed JSON value unchanged — the terminate
fallback applies only to parse failures, so well-formed JSON lacking a
`tool` key (or non-object JSON) flows on to `Agent.get_action`
unconverted. -/
theorem C10_parse_success_returns_value_unchanged (s : String) (v : Json)
    (h : loads s = some v) : parse_response s = v := by
  unfold parse_response
  rw [h]

/-- C10 witness: a JSON object without a `tool` key and a JSON array both
parse successfully and are returned unchanged (no termination call). -/
theorem C10_witness :
    loads "\x7b\"status\": 1, \"note\": \"no tool key\"\x7d" =
      some (Json.obj [("status", Json.num 1), ("note", Json.str "no tool key")]) ∧
    parse_response "\x7b\"status\": 1, \"note\": \"no tool key\"\x7d" =
      Json.obj [("status", Json.num 1), ("note", Json.str "no tool key")] ∧
    parse_response "[1, 2]" = Json.arr [Json.num 1, Json.num 2] :=
  ⟨rfl,
   C10_parse_success_returns_value_unchanged _ _ rfl,
   C10_parse_success_returns_value_unchanged "[1, 2]" (Json.arr [Json.num 1, Json.num 2]) rfl⟩

end Spec2Proof
